import Mathlib

/-!
# MaxScale gateway entry point (`server/core/gateway.c`)

A shallow embedding of the functions of `gateway.c`:

* the two poll error handlers `handle_event_errors` (client side) and
  `handle_event_errors_backend` (backend side), as functions on a descriptor
  control block (DCB) that also return the list of calls they make;
* the signal handlers `sighup_handler`, `sigterm_handler`, the wrapper
  `signal_set` and `shutdown_gateway`;
* `main`, as a computation that emits the sequence of calls it makes to the
  rest of the system and ends with the exit status of the process.

Everything `gateway.c` calls but does not define (libc, the poll engine, the
log manager, the configuration loader, the MySQL protocol module) is either an
entry of the call trace or a field of an environment record that supplies the
value the call returns.
-/

namespace Gateway

/-! ## Calls made to the rest of the system -/

/-- Functions handed to `atexit` by `main`. -/
inductive ExitFn where
  | skygw_logmanager_exit
  | datadir_cleanup
  | libmysqld_done
  deriving DecidableEq, Repr

/-- Log files of the log manager used in `gateway.c`. -/
inductive LogFile where
  | LOGFILE_ERROR
  | LOGFILE_MESSAGE
  | LOGFILE_TRACE
  deriving DecidableEq, Repr

/-- The two signals `main` deals with. -/
inductive Signal where
  | SIGHUP
  | SIGTERM
  deriving DecidableEq, Repr

/-- The signal handlers defined in `gateway.c`. -/
inductive Handler where
  | sighup_handler
  | sigterm_handler
  deriving DecidableEq, Repr

/-- Thread entry points passed to `thread_start`. -/
inductive ThreadFn where
  | log_flush_cb
  | poll_waitevents
  deriving DecidableEq, Repr

/-- The messages `gateway.c` writes through the log manager, one constructor per
call site. -/
inductive Msg where
  | refreshing_configuration
  | sigterm_received
  | sigaction_error
  | missing_file_name
  | sigfillset_error
  | sigdelset_error (s : Signal)
  | sigprocmask_error
  | no_config_file
  | mysql_library_init_failed
  | config_load_failed
  | banner
  | starting
  | started_modules
  | shutdown
  deriving DecidableEq, Repr

/-- One call made by the code of `gateway.c` to a function it does not define
itself, with the arguments that matter. -/
inductive Call where
  | fprintf_stderr
  | poll_remove_dcb (fd : Int)
  | gw_mysql_close (protocol : Nat)
  | skygw_log_write (f : LogFile) (m : Msg)
  | skygw_log_write_flush (f : LogFile) (m : Msg)
  | config_reload
  | poll_shutdown
  | exit (status : Int)
  | atexit (f : ExitFn)
  | sigfillset
  | sigdelset (s : Signal)
  | sigprocmask
  | sigaction (s : Signal) (h : Handler)
  | gw_daemonize
  | setenv_MYSQL_HOME (value : List Char)
  | access (path : List Char)
  | mkdir (path : List Char)
  | skygw_logmanager_init (args : List (List Char))
  | mysql_library_init (n : Nat) (options : List (List Char))
  | config_load (path : List Char)
  | poll_init
  | serviceStartAll
  | thread_start (f : ThreadFn) (arg : Int)
  | config_threadcount
  | calloc (n : Int)
  | poll_waitevents (arg : Int)
  | thread_wait (thread : Nat)
  | free
  | monitorStopAll
  deriving DecidableEq, Repr

/-! ## Descriptor control blocks and the error handlers -/

/-- Modelled from the spec: the `DCB_STATE_*` constants of `dcb.h`, which is not
part of the sources at hand. `gateway.c` names `DCB_STATE_LISTENING`,
`DCB_STATE_DISCONNECTED` and `DCB_STATE_FREED`; the specification lists the
states ALLOCATED, LISTENING, CONNECTED, DISCONNECTED and RECLAIMED (the
`FREED` of the code). -/
inductive DCBState where
  | DCB_STATE_ALLOCATED
  | DCB_STATE_LISTENING
  | DCB_STATE_CONNECTED
  | DCB_STATE_DISCONNECTED
  | DCB_STATE_FREED
  deriving DecidableEq, Repr

open DCBState

/-- The fields of a `DCB` that `gateway.c` reads or writes. Pointers are
natural numbers, `0` being `NULL`. -/
structure DCB where
  state : DCBState
  fd : Int
  protocol : Nat
  session : Nat
  deriving DecidableEq, Repr

/-- What the handlers' callees return: `poll_remove_dcb(dcb)` returns an `int`,
and `gw_mysql_close(&dcb->protocol)` may store a new value in the protocol
pointer it is given the address of. -/
structure Ext where
  poll_remove_dcb : DCB → Int
  gw_mysql_close : Nat → Nat

/-- Result of running an error handler: the returned `int`, the DCB as the
handler leaves it, and the calls made, in order. -/
structure HandlerResult where
  ret : Int
  dcb : DCB
  calls : List Call
  deriving DecidableEq

/-- The `if (dcb->state != DCB_STATE_LISTENING)` block of
`handle_event_errors` (lines 155-172). -/
def client_close_block (ext : Ext) (dcb : DCB) : DCB × List Call :=
  if dcb.state ≠ DCB_STATE_LISTENING then
    let t₁ := Call.poll_remove_dcb dcb.fd ::
      (if ext.poll_remove_dcb dcb = -1 then [Call.fprintf_stderr] else [])
    if dcb.fd ≠ 0 then
      let dcb₁ := { dcb with protocol := ext.gw_mysql_close dcb.protocol }
      ({ dcb₁ with state := DCB_STATE_DISCONNECTED },
        t₁ ++ [Call.gw_mysql_close dcb.protocol, Call.fprintf_stderr])
    else (dcb, t₁)
  else (dcb, [])

/-- The client-side error handler `handle_event_errors` (lines 132-182). Each
`fprintf(stderr, ..)` is recorded without its text; the blocks under
`#ifdef GW_EVENT_DEBUG` are not compiled in. -/
def handle_event_errors (ext : Ext) (dcb : DCB) : HandlerResult :=
  if dcb.state = DCB_STATE_DISCONNECTED then
    ⟨1, dcb, [Call.fprintf_stderr, Call.fprintf_stderr]⟩
  else
    let r := client_close_block ext dcb
    ⟨1, { r.1 with state := DCB_STATE_FREED },
      Call.fprintf_stderr :: r.2 ++ [Call.fprintf_stderr, Call.fprintf_stderr]⟩

/-- The backend-side error handler `handle_event_errors_backend`
(lines 184-219), with the same conventions as `handle_event_errors`. -/
def handle_event_errors_backend (ext : Ext) (dcb : DCB) : HandlerResult :=
  if dcb.state ≠ DCB_STATE_LISTENING then
    let t₁ := Call.poll_remove_dcb dcb.fd ::
      (if ext.poll_remove_dcb dcb = -1 then [Call.fprintf_stderr] else [])
    if dcb.fd ≠ 0 then
      let dcb₁ := { dcb with state := DCB_STATE_DISCONNECTED }
      ⟨0, { dcb₁ with protocol := ext.gw_mysql_close dcb.protocol },
        Call.fprintf_stderr :: t₁ ++
          [Call.fprintf_stderr, Call.gw_mysql_close dcb.protocol, Call.fprintf_stderr]⟩
    else ⟨0, dcb, Call.fprintf_stderr :: t₁⟩
  else ⟨0, dcb, [Call.fprintf_stderr]⟩

/-- Whether a call is `poll_remove_dcb`. -/
def Call.isPollRemove : Call → Bool
  | .poll_remove_dcb _ => true
  | _ => false

/-- Whether a call is `gw_mysql_close`. -/
def Call.isMysqlClose : Call → Bool
  | .gw_mysql_close _ => true
  | _ => false

/-- The forward order of handle states of the specification:
ALLOCATED, then LISTENING or CONNECTED, then DISCONNECTED, then FREED. -/
def DCBState.rank : DCBState → Nat
  | DCB_STATE_ALLOCATED => 0
  | DCB_STATE_LISTENING => 1
  | DCB_STATE_CONNECTED => 1
  | DCB_STATE_DISCONNECTED => 2
  | DCB_STATE_FREED => 3

/-- The state `b` is `a` itself or lies after it in the forward order. -/
def DCBState.forward (a b : DCBState) : Prop :=
  a = b ∨ a.rank < b.rank

instance (a b : DCBState) : Decidable (DCBState.forward a b) := by
  unfold DCBState.forward; infer_instance

/-- An `Ext` used for the concrete runs below: deregistration succeeds and
`gw_mysql_close` stores `NULL` in the protocol pointer. -/
def ext₀ : Ext := ⟨fun _ => 0, fun _ => 0⟩

/-- A connected handle with an open socket. -/
def dcb₀ : DCB := ⟨DCB_STATE_CONNECTED, 5, 7, 9⟩

/-! ## Computations that emit calls and may end the process -/

/-- How a piece of code ends: the process has ended with an exit status
(`exit(status)`, or `return status` from `main`), or control goes on with a
value. -/
inductive Outcome (α : Type) where
  | halted (status : Int)
  | value (a : α)
  deriving DecidableEq

/-- A run of a piece of code: the calls it made, in order, and how it ended. -/
structure Run (α : Type) where
  calls : List Call
  outcome : Outcome α

/-- Sequencing: when the first part ended the process, the second part does
not run. -/
def Run.bind {α β : Type} (x : Run α) (f : α → Run β) : Run β :=
  match x.outcome with
  | .halted s => ⟨x.calls, .halted s⟩
  | .value a => ⟨x.calls ++ (f a).calls, (f a).outcome⟩

instance : Monad Run where
  pure a := ⟨[], .value a⟩
  bind := Run.bind

/-- Make one call and go on. -/
def call (c : Call) : Run Unit := ⟨[c], .value ()⟩

/-- The libc `exit(status)`: the call is recorded and the process ends. -/
def exit {α : Type} (status : Int) : Run α := ⟨[Call.exit status], .halted status⟩

/-- A `return status;` out of `main`. -/
def return_from_main {α : Type} (status : Int) : Run α := ⟨[], .halted status⟩

/-- The C statement `if (c) x` without `else`. -/
def when_ (c : Prop) [Decidable c] (x : Run Unit) : Run Unit :=
  if c then x else pure ()

/-- The exit status of the process for a run of `main`. -/
def Run.status (r : Run Int) : Int :=
  match r.outcome with
  | .halted s => s
  | .value v => v

/-! ## Signal handlers -/

/-- The flag `do_exit` of `gateway.c`, read by the log flusher. -/
structure Globals where
  do_exit : Bool
  deriving DecidableEq, Repr

/-- The handler `sighup_handler` (lines 105-109). It writes none of the
globals of `gateway.c`, so they come back as they went in. -/
def sighup_handler (_i : Int) (g : Globals) : Run Globals := do
  call (.skygw_log_write .LOGFILE_MESSAGE .refreshing_configuration)
  call .config_reload
  pure g

/-- The function `log_flush_shutdown` (lines 501-504). -/
def log_flush_shutdown (_g : Globals) : Globals := ⟨true⟩

/-- The function `shutdown_gateway` (lines 494-499). -/
def shutdown_gateway (g : Globals) : Run Globals := do
  call .poll_shutdown
  pure (log_flush_shutdown g)

/-- The handler `sigterm_handler` (lines 111-116). -/
def sigterm_handler (_i : Int) (g : Globals) : Run Globals := do
  call (.skygw_log_write .LOGFILE_ERROR .sigterm_received)
  shutdown_gateway g

/-- Everything `main` learns from its callees: the value each call returns.
`sigaction s` is the value left in `err` by `GW_NOINTR_CALL(err = sigaction(..))`
(the macro is defined in `gw.h`, not at hand), `thread_start f arg` the thread
handle returned for that entry point and argument. -/
structure Env where
  atexit : ExitFn → Int
  sigfillset : Int
  sigdelset : Signal → Int
  sigprocmask : Int
  sigaction : Signal → Int
  getenv_MAXSCALE_HOME : Option (List Char)
  access : List Char → Int
  getpid : Nat
  mysql_library_init : Int
  config_load : List Char → Int
  config_threadcount : Int
  thread_start : ThreadFn → Int → Nat

/-- The wrapper `signal_set` (lines 119-130). -/
def signal_set (env : Env) (sig : Signal) (handler : Handler) : Run Unit := do
  call (.sigaction sig handler)
  when_ (env.sigaction sig < 0) do
    call (.skygw_log_write .LOGFILE_ERROR .sigaction_error)
    exit 1

/-! ## The argument vector in memory -/

/-- The terminating byte of a C string. -/
def NUL : Char := Char.ofNat 0

/-- The byte at address `a`; addresses past the modelled memory read as NUL. -/
def byteAt (mem : List Char) (a : Nat) : Char := mem.getD a NUL

/-- The C string that starts at address `p`: the bytes up to the first NUL. -/
def cstr (mem : List Char) (p : Nat) : List Char :=
  (mem.drop p).takeWhile (fun c => c ≠ NUL)

/-- The loop `while (argv[n][s] == 0 && s<10) s++;` of line 285, `p` being
`argv[n]`. The first argument bounds the number of iterations; from `s = 2`
eight iterations reach `s = 10`, where the loop stops by itself. -/
def skip_nul (mem : List Char) (p : Nat) : Nat → Nat → Nat
  | 0, s => s
  | k + 1, s => if byteAt mem (p + s) = NUL ∧ s < 10 then skip_nul mem p k (s + 1) else s

/-- The locals `daemon_mode` and `cnf_file` of `main`; `cnf_file` is an address
into the argument memory, or `none` for `NULL`. -/
structure ArgState where
  daemon_mode : Int
  cnf_file : Option Nat
  deriving DecidableEq, Repr

/-- One iteration of the argument loop (lines 276-298), `p` being `argv[n]`. -/
def arg_step (mem : List Char) (st : ArgState) (p : Nat) : Run ArgState := do
  let st₁ : ArgState :=
    if cstr mem p = ['-', 'd'] then { st with daemon_mode := 0 } else st
  if (cstr mem p).take 2 = ['-', 'c'] then
    let s := skip_nul mem p 8 2
    when_ (s = 10) (call (.skygw_log_write .LOGFILE_ERROR .missing_file_name))
    pure { st₁ with cnf_file := some (p + s) }
  else
    pure st₁

/-- The argument loop `for (n = 0; n < argc; n++)` (lines 274-299) over the
addresses `argv[0], ..., argv[argc-1]`. -/
def arg_loop (mem : List Char) : List Nat → ArgState → Run ArgState
  | [], st => pure st
  | p :: ps, st => do
      let st₁ ← arg_step mem st p
      arg_loop mem ps st₁

/-- The values of `daemon_mode` and `cnf_file` after one iteration of the
argument loop: `arg_step` without the log message. -/
def arg_step_state (mem : List Char) (st : ArgState) (p : Nat) : ArgState :=
  let st₁ : ArgState :=
    if cstr mem p = ['-', 'd'] then { st with daemon_mode := 0 } else st
  if (cstr mem p).take 2 = ['-', 'c'] then
    { st₁ with cnf_file := some (p + skip_nul mem p 8 2) }
  else st₁

/-- The addresses of the strings `args` when they are stored one after the
other from address `base`, each followed by its NUL. -/
def layout_ptrs : Nat → List (List Char) → List Nat
  | _, [] => []
  | base, a :: as => base :: layout_ptrs (base + a.length + 1) as

/-- The bytes of the strings `args` stored one after the other, each followed
by its NUL. -/
def layout_bytes : List (List Char) → List Char
  | [] => []
  | a :: as => a ++ NUL :: layout_bytes as

/-! ## `main` -/

/-- The daemon block of `main` (lines 305-340): block all signals but SIGHUP and
SIGTERM, install the two handlers, go to the background. `gw_daemonize` is
defined elsewhere; the run followed here is that of the process which goes on
after it. -/
def daemon_block (env : Env) : Run Unit := do
  call .sigfillset
  when_ (env.sigfillset ≠ 0) do
    call (.skygw_log_write .LOGFILE_ERROR .sigfillset_error)
    return_from_main 1
  call (.sigdelset .SIGHUP)
  when_ (env.sigdelset .SIGHUP ≠ 0)
    (call (.skygw_log_write .LOGFILE_ERROR (.sigdelset_error .SIGHUP)))
  call (.sigdelset .SIGTERM)
  when_ (env.sigdelset .SIGTERM ≠ 0)
    (call (.skygw_log_write .LOGFILE_ERROR (.sigdelset_error .SIGTERM)))
  call .sigprocmask
  when_ (env.sigprocmask ≠ 0)
    (call (.skygw_log_write .LOGFILE_ERROR .sigprocmask_error))
  signal_set env .SIGHUP .sighup_handler
  signal_set env .SIGTERM .sigterm_handler
  call .gw_daemonize

/-- The default configuration file `/etc/MaxScale.cnf` (line 357). -/
def etc_cnf : List Char := "/etc/MaxScale.cnf".toList

/-- The buffer `buf` after `sprintf(buf, "%s/etc/MaxScale.cnf", home)`
(line 352). -/
def home_cnf (home : List Char) : List Char := home ++ "/etc/MaxScale.cnf".toList

/-- The buffer `mysql_home` after `sprintf(mysql_home, "%s/mysql", home)`
(line 350). -/
def mysql_home (home : List Char) : List Char := home ++ "/mysql".toList

/-- Lines 348-355 of `main`: with `MAXSCALE_HOME` set, export `MYSQL_HOME` and
take `$MAXSCALE_HOME/etc/MaxScale.cnf` as configuration file when it is
readable. The argument is `cnf_file` as the argument loop left it. -/
def home_block (env : Env) (cnf_file : Option (List Char)) : Run (Option (List Char)) :=
  match env.getenv_MAXSCALE_HOME with
  | some home => do
      call (.setenv_MYSQL_HOME (mysql_home home))
      call (.access (home_cnf home))
      if env.access (home_cnf home) = 0 then pure (some (home_cnf home)) else pure cnf_file
  | none => pure cnf_file

/-- Lines 356-357 of `main`: fall back to `/etc/MaxScale.cnf`; `access` is
called only when `cnf_file` is `NULL`. -/
def etc_block (env : Env) (cnf_file : Option (List Char)) : Run (Option (List Char)) :=
  match cnf_file with
  | none => do
      call (.access etc_cnf)
      if env.access etc_cnf = 0 then pure (some etc_cnf) else pure none
  | some f => pure (some f)

/-- The value of the global `datadir` after lines 365-375. -/
def datadir (env : Env) : List Char :=
  match env.getenv_MAXSCALE_HOME with
  | some home => home ++ "/data".toList ++ Nat.toDigits 10 env.getpid
  | none => "/tmp/MaxScale/data".toList ++ Nat.toDigits 10 env.getpid

/-- The inner buffer `buf` after `sprintf(buf, "%s/log", home)` (line 388). -/
def log_dir (home : List Char) : List Char := home ++ "/log".toList

/-- Lines 365-395 of `main`: create the data directory and, with
`MAXSCALE_HOME` set, the log directory, and start the log manager there. -/
def dirs_block (env : Env) : Run Unit :=
  match env.getenv_MAXSCALE_HOME with
  | some home => do
      call (.mkdir (datadir env))
      call (.mkdir (log_dir home))
      call (.skygw_logmanager_init ["MaxScale".toList, "-g".toList, log_dir home])
  | none => do
      call (.mkdir "/tmp/MaxScale".toList)
      call (.mkdir (datadir env))

/-- The array `server_options` (lines 66-72), without its final `NULL`. -/
def server_options : List (List Char) :=
  ["SkySQL Gateway".toList, "--datadir=".toList, "--skip-innodb".toList,
   "--default-storage-engine=myisam".toList]

/-- The constant `num_elements` (line 74). -/
def num_elements : Nat := server_options.length

/-- The loop of lines 408-415: the entry `--datadir=` gets the data directory
appended. -/
def update_server_options (env : Env) (opts : List (List Char)) : List (List Char) :=
  opts.map fun o => if o = "--datadir=".toList then "--datadir=".toList ++ datadir env else o

/-- Lines 397-405 of `main`: without a configuration file the process ends
with status 1. -/
def check_cnf_file (cnf_file : Option (List Char)) : Run (List Char) :=
  match cnf_file with
  | none => do
      call (.skygw_log_write_flush .LOGFILE_ERROR .no_config_file)
      exit 1
  | some f => pure f

/-- The initialisation part of `main` (lines 265-438): everything up to and
including `config_load`. It yields the configuration file that was loaded.
The globals `datadir` and `libmysqld_started` are read again only by the
functions registered with `atexit`, which are not followed here. -/
def main_init (env : Env) (mem : List Char) (argv : List Nat) : Run (List Char) := do
  call (.atexit .skygw_logmanager_exit)
  when_ (env.atexit .skygw_logmanager_exit ≠ 0) (call .fprintf_stderr)
  call (.atexit .datadir_cleanup)
  let args ← arg_loop mem argv ⟨1, none⟩
  when_ (args.daemon_mode = 1) (daemon_block env)
  call (.atexit .libmysqld_done)
  when_ (env.atexit .libmysqld_done ≠ 0) (call .fprintf_stderr)
  let cnf₁ ← home_block env (args.cnf_file.map (cstr mem))
  let cnf₂ ← etc_block env cnf₁
  dirs_block env
  let cnf_file ← check_cnf_file cnf₂
  call (.mysql_library_init num_elements (update_server_options env server_options))
  when_ (env.mysql_library_init ≠ 0) do
    call (.skygw_log_write_flush .LOGFILE_ERROR .mysql_library_init_failed)
    exit 1
  call (.config_load cnf_file)
  when_ (env.config_load cnf_file = 0) do
    call (.skygw_log_write_flush .LOGFILE_ERROR .config_load_failed)
    exit 1
  pure cnf_file

/-- The loop of lines 467-468 over `n = 0, 1, ...`: start one poll thread per
`n` with argument `n + 1`; the result is the array `threads`. -/
def start_poll_threads (env : Env) : List Nat → Run (List Nat)
  | [] => pure []
  | n :: ns => do
      call (.thread_start .poll_waitevents (n + 1))
      let rest ← start_poll_threads env ns
      pure (env.thread_start .poll_waitevents (n + 1) :: rest)

/-- The loop of lines 470-471 over the filled part of the array `threads`. -/
def wait_poll_threads : List Nat → Run Unit
  | [] => pure ()
  | t :: ts => do
      call (.thread_wait t)
      wait_poll_threads ts

/-- The serving part of `main` (lines 440-488): start the services, the log
flusher and the poll threads, poll, and shut down once the poll loop returns.
`calloc` is taken to succeed. -/
def main_serve (env : Env) : Run Int := do
  call (.skygw_log_write .LOGFILE_MESSAGE .banner)
  call (.skygw_log_write .LOGFILE_MESSAGE .starting)
  call .poll_init
  call .serviceStartAll
  call (.skygw_log_write .LOGFILE_MESSAGE .started_modules)
  call (.thread_start .log_flush_cb 1000)
  let log_flush_thr := env.thread_start .log_flush_cb 1000
  call .config_threadcount
  let n_threads := env.config_threadcount
  call (.calloc n_threads)
  let threads ← start_poll_threads env (List.range (n_threads - 1).toNat)
  call (.poll_waitevents 0)
  wait_poll_threads threads
  call .free
  call (.thread_wait log_flush_thr)
  call .monitorStopAll
  call (.skygw_log_write .LOGFILE_MESSAGE .shutdown)
  pure 0

/-- The entry point `main` (lines 251-489). `mem` is the memory that holds the
argument strings and `argv` the addresses `argv[0], ..., argv[argc-1]`. -/
def main (env : Env) (mem : List Char) (argv : List Nat) : Run Int := do
  let _ ← main_init env mem argv
  main_serve env

/-- A call that starts a thread. -/
def Call.isThreadStart : Call → Bool
  | .thread_start _ _ => true
  | _ => false

/-- A direct call of `poll_waitevents`. -/
def Call.isPollWait : Call → Bool
  | .poll_waitevents _ => true
  | _ => false

/-- A `thread_wait` call. -/
def Call.isThreadWait : Call → Bool
  | .thread_wait _ => true
  | _ => false

/-- A call that installs a signal handler. -/
def Call.isSigaction : Call → Bool
  | .sigaction _ _ => true
  | _ => false

/-- A call that makes a poll participant: a thread started on
`poll_waitevents`, or `poll_waitevents` called directly. -/
def Call.isParticipant : Call → Bool
  | .thread_start .poll_waitevents _ => true
  | .poll_waitevents _ => true
  | _ => false

/-- An environment in which every call succeeds: `MAXSCALE_HOME` is unset,
every file is readable and four threads are configured. -/
def env₀ : Env where
  atexit := fun _ => 0
  sigfillset := 0
  sigdelset := fun _ => 0
  sigprocmask := 0
  sigaction := fun _ => 0
  getenv_MAXSCALE_HOME := none
  access := fun _ => 0
  getpid := 4242
  mysql_library_init := 0
  config_load := fun _ => 1
  config_threadcount := 4
  thread_start := fun f arg => match f with
    | .log_flush_cb => 100
    | .poll_waitevents => arg.toNat

/-- A call that belongs to the serving part of `main`: `poll_init`, a thread
start, a direct `poll_waitevents`, or a `thread_wait`. -/
def Call.isServeCall : Call → Bool
  | .poll_init => true
  | .thread_start _ _ => true
  | .poll_waitevents _ => true
  | .thread_wait _ => true
  | _ => false

/-- The path a `config_load` call is given. -/
def Call.configLoadPath : Call → Option (List Char)
  | .config_load p => some p
  | _ => none

/-- Whether a call is one of the three that `main` checks and it failed in the
environment `env`: `sigaction` returned a negative value, `mysql_library_init`
returned non-zero, `config_load` returned zero. -/
def Call.failed (env : Env) : Call → Bool
  | .sigaction s _ => decide (env.sigaction s < 0)
  | .mysql_library_init _ _ => decide (env.mysql_library_init ≠ 0)
  | .config_load p => decide (env.config_load p = 0)
  | _ => false

/-- The locals `daemon_mode` and `cnf_file` after the argument loop of `main`. -/
def main_args (mem : List Char) (argv : List Nat) : ArgState :=
  argv.foldl (arg_step_state mem) ⟨1, none⟩

/-- The value `home_block` leaves in `cnf_file`. -/
def cnf_after_home (env : Env) (cnf_file : Option (List Char)) : Option (List Char) :=
  match env.getenv_MAXSCALE_HOME with
  | some home => if env.access (home_cnf home) = 0 then some (home_cnf home) else cnf_file
  | none => cnf_file

/-- The value `etc_block` leaves in `cnf_file`. -/
def cnf_after_etc (env : Env) (cnf_file : Option (List Char)) : Option (List Char) :=
  match cnf_file with
  | none => if env.access etc_cnf = 0 then some etc_cnf else none
  | some f => some f

/-- The value of `cnf_file` at line 397 of `main`, where it is tested against
`NULL`. -/
def resolved_cnf_file (env : Env) (mem : List Char) (argv : List Nat) : Option (List Char) :=
  cnf_after_etc env (cnf_after_home env ((main_args mem argv).cnf_file.map (cstr mem)))

/-- No configuration file can be resolved: the argument loop left `cnf_file`
at `NULL`, `$MAXSCALE_HOME/etc/MaxScale.cnf` is not readable (or the variable is
unset), and `/etc/MaxScale.cnf` is not readable. -/
def no_config_file (env : Env) (mem : List Char) (argv : List Nat) : Bool :=
  (main_args mem argv).cnf_file.isNone &&
  (match env.getenv_MAXSCALE_HOME with
   | some home => decide (env.access (home_cnf home) ≠ 0)
   | none => true) &&
  decide (env.access etc_cnf ≠ 0)

/-- The command line holds the argument `-d`. -/
def has_dash_d (mem : List Char) (argv : List Nat) : Prop :=
  ∃ p ∈ argv, cstr mem p = ['-', 'd']

instance (mem : List Char) (argv : List Nat) : Decidable (has_dash_d mem argv) := by
  unfold has_dash_d; infer_instance

/-- An environment with `MAXSCALE_HOME=/opt/ms` in which every call succeeds
and every file is readable. -/
def env_home : Env := { env₀ with getenv_MAXSCALE_HOME := some "/opt/ms".toList }

/-- An environment without `MAXSCALE_HOME` in which no file is readable. -/
def env_nocnf : Env := { env₀ with access := fun _ => -1 }

/-- The command line `maxscale -d`. -/
def args_d : List (List Char) := ["maxscale".toList, "-d".toList]

/-- The command line `maxscale -c /tmp/my.cnf`. -/
def args_c : List (List Char) := ["maxscale".toList, "-c".toList, "/tmp/my.cnf".toList]

/-- The command line `maxscale`. -/
def args_plain : List (List Char) := ["maxscale".toList]

/-- A listening handle. -/
def dcb_listening : DCB := ⟨DCB_STATE_LISTENING, 5, 7, 9⟩

/-- A handle marked FREED whose socket field is still set. -/
def dcb_freed : DCB := ⟨DCB_STATE_FREED, 5, 7, 9⟩

/-! ## Theorems on the error handlers -/

/-- C4. On a client handle whose state is already DISCONNECTED,
`handle_event_errors` returns 1, leaves the whole DCB (state, socket, protocol
pointer) as it was, and calls neither `poll_remove_dcb` nor `gw_mysql_close`. -/
theorem handle_event_errors_disconnected_noop (ext : Ext) (dcb : DCB)
    (h : dcb.state = DCB_STATE_DISCONNECTED) :
    (handle_event_errors ext dcb).ret = 1 ∧
    (handle_event_errors ext dcb).dcb = dcb ∧
    (handle_event_errors ext dcb).dcb.state = dcb.state ∧
    (handle_event_errors ext dcb).dcb.fd = dcb.fd ∧
    (handle_event_errors ext dcb).dcb.protocol = dcb.protocol ∧
    ∀ c ∈ (handle_event_errors ext dcb).calls,
      c.isPollRemove = false ∧ c.isMysqlClose = false := by
  simp [handle_event_errors, h, Call.isPollRemove, Call.isMysqlClose]

/-- C4, at a concrete disconnected handle. -/
theorem handle_event_errors_disconnected_noop_witness :
    (handle_event_errors ext₀ ⟨DCB_STATE_DISCONNECTED, 5, 7, 9⟩).ret = 1 ∧
    (handle_event_errors ext₀ ⟨DCB_STATE_DISCONNECTED, 5, 7, 9⟩).dcb
      = ⟨DCB_STATE_DISCONNECTED, 5, 7, 9⟩ :=
  ⟨(handle_event_errors_disconnected_noop ext₀ ⟨DCB_STATE_DISCONNECTED, 5, 7, 9⟩ rfl).1,
   (handle_event_errors_disconnected_noop ext₀ ⟨DCB_STATE_DISCONNECTED, 5, 7, 9⟩ rfl).2.1⟩

/-- C1. Calling an error handler twice on the connected handle `dcb₀`
(socket 5 open) runs `poll_remove_dcb` twice and `gw_mysql_close` twice, for
the client handler and for the backend handler alike, whatever the callees
return; the state is the same after the second call as after the first. -/
theorem error_handlers_twice_close_twice (e₁ e₂ : Ext) :
    (((handle_event_errors e₁ dcb₀).calls ++
        (handle_event_errors e₂ (handle_event_errors e₁ dcb₀).dcb).calls).filter
          Call.isPollRemove).length = 2 ∧
    (((handle_event_errors e₁ dcb₀).calls ++
        (handle_event_errors e₂ (handle_event_errors e₁ dcb₀).dcb).calls).filter
          Call.isMysqlClose).length = 2 ∧
    (((handle_event_errors_backend e₁ dcb₀).calls ++
        (handle_event_errors_backend e₂ (handle_event_errors_backend e₁ dcb₀).dcb).calls).filter
          Call.isPollRemove).length = 2 ∧
    (((handle_event_errors_backend e₁ dcb₀).calls ++
        (handle_event_errors_backend e₂ (handle_event_errors_backend e₁ dcb₀).dcb).calls).filter
          Call.isMysqlClose).length = 2 ∧
    (handle_event_errors e₂ (handle_event_errors e₁ dcb₀).dcb).dcb.state
      = (handle_event_errors e₁ dcb₀).dcb.state ∧
    (handle_event_errors_backend e₂ (handle_event_errors_backend e₁ dcb₀).dcb).dcb.state
      = (handle_event_errors_backend e₁ dcb₀).dcb.state := by
  refine ⟨?_, ?_, ?_, ?_, ?_, ?_⟩ <;>
    simp [handle_event_errors, handle_event_errors_backend, client_close_block, dcb₀,
      Call.isPollRemove, Call.isMysqlClose, List.filter_cons, apply_ite (List.filter _)]

/-- C2. On the connected handle `dcb₀` (socket 5 open) the client handler
`handle_event_errors` deregisters the handle and releases its protocol object,
and returns with the state FREED, not DISCONNECTED; the backend handler returns
with the state DISCONNECTED. -/
theorem handle_event_errors_leaves_freed (ext : Ext) :
    (handle_event_errors ext dcb₀).dcb.state = DCB_STATE_FREED ∧
    (handle_event_errors ext dcb₀).dcb.state ≠ DCB_STATE_DISCONNECTED ∧
    Call.poll_remove_dcb 5 ∈ (handle_event_errors ext dcb₀).calls ∧
    Call.gw_mysql_close 7 ∈ (handle_event_errors ext dcb₀).calls ∧
    (handle_event_errors_backend ext dcb₀).dcb.state = DCB_STATE_DISCONNECTED := by
  simp [handle_event_errors, handle_event_errors_backend, client_close_block, dcb₀]

/-- C3. Two runs of the handlers that leave the forward order
ALLOCATED, LISTENING or CONNECTED, DISCONNECTED, FREED, whatever the callees
return. On the LISTENING handle `dcb_listening` the client handler skips the
close block (no `poll_remove_dcb`, no `gw_mysql_close`, state still LISTENING
after the block) and then sets FREED: the handle is FREED without ever having
been DISCONNECTED. On the FREED handle `dcb_freed` (socket field 5) the backend
handler sets the state back to DISCONNECTED, which is not a forward move. -/
theorem error_handlers_leave_forward_order (ext : Ext) :
    dcb_listening.state = DCB_STATE_LISTENING ∧
    (client_close_block ext dcb_listening).1.state = DCB_STATE_LISTENING ∧
    (handle_event_errors ext dcb_listening).dcb.state = DCB_STATE_FREED ∧
    (∀ c ∈ (handle_event_errors ext dcb_listening).calls,
      c.isPollRemove = false ∧ c.isMysqlClose = false) ∧
    dcb_freed.state = DCB_STATE_FREED ∧
    (handle_event_errors_backend ext dcb_freed).dcb.state = DCB_STATE_DISCONNECTED ∧
    ¬ DCBState.forward dcb_freed.state
        (handle_event_errors_backend ext dcb_freed).dcb.state := by
  simp [handle_event_errors, handle_event_errors_backend, client_close_block, dcb_listening,
    dcb_freed, DCBState.forward, DCBState.rank, Call.isPollRemove, Call.isMysqlClose]

/-! ## The argument loop -/

section RunLemmas
variable {α β : Type}

@[simp] theorem Run.bind_def (x : Run α) (f : α → Run β) : x >>= f = Run.bind x f := rfl

@[simp] theorem Run.pure_def (a : α) : (pure a : Run α) = ⟨[], .value a⟩ := rfl

theorem Run.bind_outcome_value (x : Run α) (f : α → Run β) (b : β) :
    (Run.bind x f).outcome = .value b ↔
      ∃ a, x.outcome = .value a ∧ (f a).outcome = .value b := by
  unfold Run.bind
  cases h : x.outcome <;> simp

theorem Run.bind_outcome_halted (x : Run α) (f : α → Run β) (s : Int) :
    (Run.bind x f).outcome = .halted s ↔
      x.outcome = .halted s ∨ ∃ a, x.outcome = .value a ∧ (f a).outcome = .halted s := by
  unfold Run.bind
  cases h : x.outcome <;> simp

theorem Run.mem_bind_calls (x : Run α) (f : α → Run β) (c : Call) :
    c ∈ (Run.bind x f).calls ↔
      c ∈ x.calls ∨ ∃ a, x.outcome = .value a ∧ c ∈ (f a).calls := by
  unfold Run.bind
  cases h : x.outcome <;> simp

theorem Run.bind_of_value (x : Run α) (f : α → Run β) (a : α) (h : x.outcome = .value a) :
    Run.bind x f = ⟨x.calls ++ (f a).calls, (f a).outcome⟩ := by
  unfold Run.bind
  rw [h]

theorem Run.bind_of_halted (x : Run α) (f : α → Run β) (s : Int) (h : x.outcome = .halted s) :
    Run.bind x f = ⟨x.calls, .halted s⟩ := by
  unfold Run.bind
  rw [h]

theorem when_outcome_value (c : Prop) [Decidable c] (x : Run Unit) (u : Unit) :
    (when_ c x).outcome = .value u ↔ (c → x.outcome = .value u) := by
  unfold when_
  split_ifs with h <;> simp [h]

theorem when_outcome_halted (c : Prop) [Decidable c] (x : Run Unit) (s : Int) :
    (when_ c x).outcome = .halted s ↔ c ∧ x.outcome = .halted s := by
  unfold when_
  split_ifs with h <;> simp [h]

theorem mem_when_calls (c : Prop) [Decidable c] (x : Run Unit) (d : Call) :
    d ∈ (when_ c x).calls ↔ c ∧ d ∈ x.calls := by
  unfold when_
  split_ifs with h <;> simp [h]

end RunLemmas

/-- The bound of eight iterations in `skip_nul` is never the reason the loop
of line 285 stops: more fuel gives the same result. -/
theorem skip_nul_fuel (mem : List Char) (p k : Nat) (j s : Nat) (h : s + j = 10) :
    skip_nul mem p (j + k) s = skip_nul mem p j s := by
  induction j generalizing s with
  | zero =>
      have hs : s = 10 := by omega
      subst hs
      cases k <;> simp [skip_nul]
  | succ j ih =>
      have e : j + 1 + k = (j + k) + 1 := by omega
      rw [e]
      simp only [skip_nul]
      rw [ih (s + 1) (by omega)]

theorem arg_step_outcome (mem : List Char) (st : ArgState) (p : Nat) :
    (arg_step mem st p).outcome = .value (arg_step_state mem st p) := by
  unfold arg_step arg_step_state
  split_ifs <;> simp [Run.bind, when_, call, apply_ite Run.outcome]

theorem arg_loop_outcome (mem : List Char) (argv : List Nat) (st : ArgState) :
    (arg_loop mem argv st).outcome = .value (argv.foldl (arg_step_state mem) st) := by
  induction argv generalizing st with
  | nil => simp [arg_loop]
  | cons p ps ih =>
      simp only [arg_loop, Run.bind_def, List.foldl_cons]
      rw [Run.bind_of_value _ _ _ (arg_step_outcome mem st p)]
      exact ih _

theorem cstr_at (A tok B : List Char) (h : NUL ∉ tok) :
    cstr (A ++ tok ++ NUL :: B) A.length = tok := by
  unfold cstr
  rw [List.append_assoc, List.drop_left]
  induction tok with
  | nil => simp [List.takeWhile]
  | cons c cs ih =>
      have hc : c ≠ NUL := fun e => h (by simp [e])
      have hcs : NUL ∉ cs := fun e => h (by simp [e])
      simp [List.takeWhile, hc]
      simpa using ih hcs

theorem byteAt_end (A tok B : List Char) :
    byteAt (A ++ tok ++ NUL :: B) (A.length + tok.length) = NUL := by
  unfold byteAt
  have : A.length + tok.length = (A ++ tok).length := by simp
  rw [this, List.getD_eq_getElem?_getD, List.getElem?_append_right (le_refl _)]
  simp

theorem byteAt_head (A tok B : List Char) (h : tok ≠ []) (hn : NUL ∉ tok) :
    byteAt (A ++ tok ++ B) A.length ≠ NUL := by
  unfold byteAt
  cases tok with
  | nil => exact absurd rfl h
  | cons c cs =>
      rw [List.append_assoc, List.getD_eq_getElem?_getD, List.getElem?_append_right (le_refl _)]
      simp
      intro e
      exact hn (by simp [e])

theorem layout_bytes_append (xs ys : List (List Char)) :
    layout_bytes (xs ++ ys) = layout_bytes xs ++ layout_bytes ys := by
  induction xs with
  | nil => rfl
  | cons a as ih => simp [layout_bytes, ih]

theorem layout_ptrs_append (b : Nat) (xs ys : List (List Char)) :
    layout_ptrs b (xs ++ ys)
      = layout_ptrs b xs ++ layout_ptrs (b + (layout_bytes xs).length) ys := by
  induction xs generalizing b with
  | nil => simp [layout_ptrs, layout_bytes]
  | cons a as ih =>
      simp [layout_ptrs, layout_bytes, ih]
      congr 1
      omega

/-- Tokens that do not start with `-c` leave `cnf_file` alone. -/
theorem foldl_keeps_cnf_file (T : List (List Char)) (A B : List Char) (st : ArgState)
    (hnul : ∀ a ∈ T, NUL ∉ a) (hc : ∀ a ∈ T, a.take 2 ≠ ['-', 'c']) :
    ((layout_ptrs A.length T).foldl (arg_step_state (A ++ layout_bytes T ++ B)) st).cnf_file
      = st.cnf_file := by
  induction T generalizing A st with
  | nil => simp [layout_ptrs]
  | cons a T ih =>
      have ha : NUL ∉ a := hnul a (by simp)
      have hca : a.take 2 ≠ ['-', 'c'] := hc a (by simp)
      have hmem : A ++ layout_bytes (a :: T) ++ B = A ++ a ++ NUL :: (layout_bytes T ++ B) := by
        simp [layout_bytes]
      have hmem₂ : A ++ layout_bytes (a :: T) ++ B = (A ++ a ++ [NUL]) ++ layout_bytes T ++ B := by
        simp [layout_bytes]
      have hlen : A.length + a.length + 1 = (A ++ a ++ [NUL]).length := by
        simp [Nat.add_assoc]
      simp only [layout_ptrs, List.foldl_cons]
      rw [hlen, hmem₂, ih (A ++ a ++ [NUL]) _ (fun x hx => hnul x (by simp [hx]))
        (fun x hx => hc x (by simp [hx]))]
      rw [← hmem₂, hmem]
      unfold arg_step_state
      rw [cstr_at A a _ ha]
      simp only [hca, if_false]
      split_ifs <;> rfl

theorem skip_nul_appended (A P B : List Char) (hP : P ≠ []) (hn : NUL ∉ P) :
    skip_nul (A ++ ['-', 'c'] ++ P ++ B) A.length 8 2 = 2 := by
  have h := byteAt_head (A ++ ['-', 'c']) P B hP hn
  have hl : (A ++ ['-', 'c']).length = A.length + 2 := by simp
  rw [hl] at h
  have h' : byteAt (A ++ '-' :: 'c' :: (P ++ B)) (A.length + 2) ≠ NUL := by simpa using h
  simp [skip_nul, h']

theorem skip_nul_separate (A P B : List Char) (hP : P ≠ []) (hn : NUL ∉ P) :
    skip_nul (A ++ ['-', 'c'] ++ NUL :: (P ++ B)) A.length 8 2 = 3 := by
  have h₀ := byteAt_end A ['-', 'c'] (P ++ B)
  have h := byteAt_head (A ++ ['-', 'c'] ++ [NUL]) P B hP hn
  have hl : (A ++ ['-', 'c'] ++ [NUL]).length = A.length + 3 := by simp
  have hm : A ++ ['-', 'c'] ++ [NUL] ++ P ++ B = A ++ ['-', 'c'] ++ NUL :: (P ++ B) := by simp
  rw [hl, hm] at h
  have h₀' : byteAt (A ++ '-' :: 'c' :: NUL :: (P ++ B)) (A.length + 2) = NUL := by
    simpa using h₀
  have h' : byteAt (A ++ '-' :: 'c' :: NUL :: (P ++ B)) (A.length + 3) ≠ NUL := by
    simpa using h
  simp [skip_nul, h', h₀']

/-- The state of the argument loop after the strings `pre ++ tok :: post`,
stored from the end of `before` on, splits at `tok`. -/
theorem arg_fold_split (before rest tok : List Char) (pre post : List (List Char))
    (st : ArgState) :
    (layout_ptrs before.length (pre ++ tok :: post)).foldl
        (arg_step_state (before ++ layout_bytes (pre ++ tok :: post) ++ rest)) st
      = (layout_ptrs (before ++ layout_bytes pre ++ tok ++ [NUL]).length post).foldl
          (arg_step_state ((before ++ layout_bytes pre ++ tok ++ [NUL]) ++ layout_bytes post ++ rest))
          (arg_step_state ((before ++ layout_bytes pre) ++ tok ++ NUL :: (layout_bytes post ++ rest))
            ((layout_ptrs before.length pre).foldl
              (arg_step_state (before ++ layout_bytes (pre ++ tok :: post) ++ rest)) st)
            (before ++ layout_bytes pre).length) := by
  have hm₁ : before ++ layout_bytes (pre ++ tok :: post) ++ rest
      = (before ++ layout_bytes pre) ++ tok ++ NUL :: (layout_bytes post ++ rest) := by
    simp [layout_bytes_append, layout_bytes]
  have hm₂ : (before ++ layout_bytes pre ++ tok ++ [NUL]) ++ layout_bytes post ++ rest
      = (before ++ layout_bytes pre) ++ tok ++ NUL :: (layout_bytes post ++ rest) := by
    simp
  have hl : before.length + (layout_bytes pre).length + tok.length + 1
      = (before ++ layout_bytes pre ++ tok ++ [NUL]).length := by
    simp [Nat.add_assoc]
  rw [layout_ptrs_append, List.foldl_append]
  simp only [layout_ptrs, List.foldl_cons]
  rw [hl, hm₂, ← hm₁]
  simp

/-- C7. With the argument strings stored one after the other, each followed by
its NUL, and the last argument that starts with `-c` being either `-c` with
the non-empty path `P` appended or the lone `-c` followed by the argument `P`,
the argument loop of `main` leaves `cnf_file` pointing at the string `P`. -/
theorem arg_loop_selects_cnf_file (before rest P : List Char) (pre post args : List (List Char))
    (hP : P ≠ []) (hnP : NUL ∉ P) (hnul : ∀ a ∈ post, NUL ∉ a)
    (hlast : ∀ a ∈ post, a.take 2 ≠ ['-', 'c'])
    (hform : args = pre ++ (['-', 'c'] ++ P) :: post ∨
      (args = pre ++ ['-', 'c'] :: P :: post ∧ P.take 2 ≠ ['-', 'c'])) :
    ∃ st ptr,
      (arg_loop (before ++ layout_bytes args ++ rest) (layout_ptrs before.length args)
          ⟨1, none⟩).outcome = .value st ∧
      st.cnf_file = some ptr ∧
      cstr (before ++ layout_bytes args ++ rest) ptr = P := by
  have hN₁ : NUL ≠ '-' := by decide
  have hN₂ : NUL ≠ 'c' := by decide
  rcases hform with rfl | ⟨rfl, hPc⟩
  · refine ⟨_, (before ++ layout_bytes pre).length + 2, arg_loop_outcome _ _ _, ?_, ?_⟩
    · rw [arg_fold_split, foldl_keeps_cnf_file post _ rest _ hnul hlast]
      have htok : NUL ∉ ['-', 'c'] ++ P := by
        simp [hN₁, hN₂, hnP]
      unfold arg_step_state
      rw [cstr_at _ _ _ htok]
      have hs := skip_nul_appended (before ++ layout_bytes pre) P
        (NUL :: (layout_bytes post ++ rest)) hP hnP
      have hm : before ++ layout_bytes pre ++ (['-', 'c'] ++ P) ++ NUL :: (layout_bytes post ++ rest)
          = before ++ layout_bytes pre ++ ['-', 'c'] ++ P ++ NUL :: (layout_bytes post ++ rest) := by
        simp
      rw [hm, hs]
      simp
    · have hm : before ++ layout_bytes (pre ++ (['-', 'c'] ++ P) :: post) ++ rest
          = (before ++ layout_bytes pre ++ ['-', 'c']) ++ P ++ NUL :: (layout_bytes post ++ rest) := by
        simp [layout_bytes_append, layout_bytes]
      have hl : (before ++ layout_bytes pre).length + 2
          = (before ++ layout_bytes pre ++ ['-', 'c']).length := by simp [Nat.add_assoc]
      rw [hm, hl]
      exact cstr_at _ _ _ hnP
  · refine ⟨_, (before ++ layout_bytes pre).length + 3, arg_loop_outcome _ _ _, ?_, ?_⟩
    · rw [arg_fold_split, foldl_keeps_cnf_file (P :: post) _ rest _
        (by intro a ha; rcases List.mem_cons.1 ha with rfl | h; exacts [hnP, hnul a h])
        (by intro a ha; rcases List.mem_cons.1 ha with rfl | h; exacts [hPc, hlast a h])]
      have htok : NUL ∉ ['-', 'c'] := by
        simp [hN₁, hN₂]
      unfold arg_step_state
      rw [cstr_at _ _ _ htok]
      have hs := skip_nul_separate (before ++ layout_bytes pre) P
        (NUL :: (layout_bytes post ++ rest)) hP hnP
      have hm : before ++ layout_bytes pre ++ ['-', 'c'] ++ NUL :: (layout_bytes (P :: post) ++ rest)
          = before ++ layout_bytes pre ++ ['-', 'c'] ++ NUL :: (P ++ NUL :: (layout_bytes post ++ rest)) := by
        simp [layout_bytes]
      rw [hm, hs]
      simp
    · have hm : before ++ layout_bytes (pre ++ ['-', 'c'] :: P :: post) ++ rest
          = (before ++ layout_bytes pre ++ ['-', 'c'] ++ [NUL]) ++ P
              ++ NUL :: (layout_bytes post ++ rest) := by
        simp [layout_bytes_append, layout_bytes]
      have hl : (before ++ layout_bytes pre).length + 3
          = (before ++ layout_bytes pre ++ ['-', 'c'] ++ [NUL]).length := by
        simp [Nat.add_assoc]
      rw [hm, hl]
      exact cstr_at _ _ _ hnP

/-! ## The blocks of `main` -/

theorem arg_loop_calls (mem : List Char) (argv : List Nat) (st : ArgState) (c : Call)
    (h : c ∈ (arg_loop mem argv st).calls) :
    c = Call.skygw_log_write .LOGFILE_ERROR .missing_file_name := by
  induction argv generalizing st with
  | nil => simp [arg_loop] at h
  | cons p ps ih =>
      simp only [arg_loop, Run.bind_def, Run.mem_bind_calls] at h
      rcases h with h | ⟨a, _, h⟩
      · unfold arg_step at h
        split_ifs at h <;>
          simp [Run.mem_bind_calls, when_, call, apply_ite Run.calls] at h
        all_goals exact h.2
      · exact ih _ h

theorem mem_arg_loop_calls (mem : List Char) (argv : List Nat) (st : ArgState) (c : Call) :
    c ∈ (arg_loop mem argv st).calls ↔
      c = Call.skygw_log_write .LOGFILE_ERROR .missing_file_name ∧
        (arg_loop mem argv st).calls ≠ [] := by
  constructor
  · intro h
    exact ⟨arg_loop_calls mem argv st c h, List.ne_nil_of_mem h⟩
  · rintro ⟨rfl, h⟩
    obtain ⟨d, hd⟩ := List.exists_mem_of_ne_nil _ h
    have := arg_loop_calls mem argv st d hd
    subst this
    exact hd

theorem main_args_outcome (mem : List Char) (argv : List Nat) :
    (arg_loop mem argv ⟨1, none⟩).outcome = .value (main_args mem argv) :=
  arg_loop_outcome mem argv _

theorem home_block_outcome (env : Env) (cnf : Option (List Char)) :
    (home_block env cnf).outcome = .value (cnf_after_home env cnf) := by
  unfold home_block cnf_after_home
  cases env.getenv_MAXSCALE_HOME with
  | none => simp
  | some home =>
      by_cases h : env.access (home_cnf home) = 0 <;> simp [Run.bind, call, h]

theorem mem_home_block_calls (env : Env) (cnf : Option (List Char)) (c : Call) :
    c ∈ (home_block env cnf).calls ↔
      ∃ home, env.getenv_MAXSCALE_HOME = some home ∧
        (c = .setenv_MYSQL_HOME (mysql_home home) ∨ c = .access (home_cnf home)) := by
  unfold home_block
  cases env.getenv_MAXSCALE_HOME <;>
    simp [Run.mem_bind_calls, call, apply_ite Run.calls]

theorem etc_block_outcome (env : Env) (cnf : Option (List Char)) :
    (etc_block env cnf).outcome = .value (cnf_after_etc env cnf) := by
  unfold etc_block cnf_after_etc
  cases cnf with
  | some f => simp
  | none => by_cases h : env.access etc_cnf = 0 <;> simp [Run.bind, call, h]

theorem mem_etc_block_calls (env : Env) (cnf : Option (List Char)) (c : Call) :
    c ∈ (etc_block env cnf).calls ↔ cnf = none ∧ c = .access etc_cnf := by
  unfold etc_block
  cases cnf <;>
    simp [Run.mem_bind_calls, call, apply_ite Run.calls]

theorem dirs_block_outcome (env : Env) :
    (dirs_block env).outcome = .value () := by
  unfold dirs_block
  cases env.getenv_MAXSCALE_HOME <;> simp [Run.bind, call]

theorem mem_dirs_block_calls (env : Env) (c : Call) :
    c ∈ (dirs_block env).calls ↔
      (∃ home, env.getenv_MAXSCALE_HOME = some home ∧
        (c = .mkdir (datadir env) ∨ c = .mkdir (log_dir home) ∨
          c = .skygw_logmanager_init ["MaxScale".toList, "-g".toList, log_dir home])) ∨
      (env.getenv_MAXSCALE_HOME = none ∧
        (c = .mkdir "/tmp/MaxScale".toList ∨ c = .mkdir (datadir env))) := by
  unfold dirs_block
  cases hh : env.getenv_MAXSCALE_HOME <;>
    simp [Run.mem_bind_calls, call]

theorem check_cnf_file_outcome (cnf : Option (List Char)) (q : List Char) :
    (check_cnf_file cnf).outcome = .value q ↔ cnf = some q := by
  unfold check_cnf_file
  cases cnf <;> simp [Run.bind_outcome_value, call, exit]

theorem check_cnf_file_halted (cnf : Option (List Char)) (s : Int) :
    (check_cnf_file cnf).outcome = .halted s ↔ cnf = none ∧ s = 1 := by
  unfold check_cnf_file
  cases cnf with
  | some f => simp
  | none =>
      simp [Run.bind_outcome_halted, call, exit]
      exact eq_comm

theorem mem_check_cnf_file_calls (cnf : Option (List Char)) (c : Call) :
    c ∈ (check_cnf_file cnf).calls ↔
      cnf = none ∧ (c = .skygw_log_write_flush .LOGFILE_ERROR .no_config_file ∨ c = .exit 1) := by
  unfold check_cnf_file
  cases cnf <;> simp [Run.mem_bind_calls, call, exit]

theorem resolved_none_iff (env : Env) (mem : List Char) (argv : List Nat) :
    resolved_cnf_file env mem argv = none ↔ no_config_file env mem argv = true := by
  unfold resolved_cnf_file no_config_file cnf_after_etc cnf_after_home
  cases hh : env.getenv_MAXSCALE_HOME with
  | none =>
      cases hc : (main_args mem argv).cnf_file <;> simp
  | some home =>
      by_cases ha : env.access (home_cnf home) = 0
      · simp [ha]
      · cases hc : (main_args mem argv).cnf_file <;> simp [ha]

/-! ## The initialisation part of `main` -/

theorem main_init_value_iff (env : Env) (mem : List Char) (argv : List Nat) (q : List Char) :
    (main_init env mem argv).outcome = .value q ↔
      ((main_args mem argv).daemon_mode = 1 →
        env.sigfillset = 0 ∧ 0 ≤ env.sigaction .SIGHUP ∧ 0 ≤ env.sigaction .SIGTERM) ∧
      resolved_cnf_file env mem argv = some q ∧
      env.mysql_library_init = 0 ∧ env.config_load q ≠ 0 := by
  simp [main_init, daemon_block, signal_set, home_block_outcome, etc_block_outcome,
    dirs_block_outcome, check_cnf_file_outcome, Run.bind_outcome_value, call, exit,
    return_from_main, when_outcome_value, main_args_outcome, resolved_cnf_file]
  intro _
  constructor
  · rintro ⟨a, h₁, h₂, h₃, rfl⟩
    exact ⟨h₁, h₂, h₃⟩
  · rintro ⟨h₁, h₂, h₃⟩
    exact ⟨q, h₁, h₂, h₃, rfl⟩

theorem main_init_halted (env : Env) (mem : List Char) (argv : List Nat) (s : Int)
    (h : (main_init env mem argv).outcome = .halted s) : s = 1 := by
  simp [main_init, daemon_block, signal_set, home_block_outcome, etc_block_outcome,
    dirs_block_outcome, check_cnf_file_outcome, check_cnf_file_halted,
    Run.bind_outcome_value, Run.bind_outcome_halted, call, exit,
    return_from_main, when_outcome_value, when_outcome_halted, main_args_outcome] at h
  rcases h with ⟨_, h | ⟨_, h | h⟩⟩ | ⟨_, h | ⟨a, _, h | h⟩⟩
  · exact h.2.symm
  · exact h.2.symm
  · exact h.2.2.symm
  · exact h.2
  · exact h.2.symm
  · exact h.2.2.symm

theorem main_init_calls_not_serve (env : Env) (mem : List Char) (argv : List Nat) (c : Call)
    (hc : c ∈ (main_init env mem argv).calls) : c.isServeCall = false := by
  simp [main_init, daemon_block, signal_set, home_block_outcome, etc_block_outcome,
    dirs_block_outcome, check_cnf_file_outcome, mem_home_block_calls, mem_etc_block_calls,
    mem_check_cnf_file_calls, mem_arg_loop_calls, mem_dirs_block_calls, Run.mem_bind_calls,
    Run.bind_outcome_value, call, exit,
    return_from_main, when_outcome_value, mem_when_calls, main_args_outcome] at hc
  aesop

theorem main_init_sigaction (env : Env) (mem : List Char) (argv : List Nat) (s : Signal)
    (h : Handler) (hc : Call.sigaction s h ∈ (main_init env mem argv).calls) :
    (main_args mem argv).daemon_mode = 1 := by
  simp [main_init, daemon_block, signal_set, home_block_outcome, etc_block_outcome,
    dirs_block_outcome, check_cnf_file_outcome, mem_home_block_calls, mem_etc_block_calls,
    mem_check_cnf_file_calls, mem_arg_loop_calls, mem_dirs_block_calls, Run.mem_bind_calls,
    Run.bind_outcome_value, call, exit,
    return_from_main, when_outcome_value, mem_when_calls, main_args_outcome] at hc
  aesop

theorem main_init_config_load (env : Env) (mem : List Char) (argv : List Nat) (p : List Char)
    (hc : Call.config_load p ∈ (main_init env mem argv).calls) :
    resolved_cnf_file env mem argv = some p := by
  simp [main_init, daemon_block, signal_set, home_block_outcome, etc_block_outcome,
    dirs_block_outcome, check_cnf_file_outcome, mem_home_block_calls, mem_etc_block_calls,
    mem_check_cnf_file_calls, mem_arg_loop_calls, mem_dirs_block_calls, Run.mem_bind_calls,
    Run.bind_outcome_value, call, exit,
    return_from_main, when_outcome_value, mem_when_calls, main_args_outcome] at hc
  unfold resolved_cnf_file
  exact hc.2.1

theorem main_init_installs (env : Env) (mem : List Char) (argv : List Nat) (q : List Char)
    (hv : (main_init env mem argv).outcome = .value q)
    (hd : (main_args mem argv).daemon_mode = 1) :
    Call.sigaction .SIGHUP .sighup_handler ∈ (main_init env mem argv).calls ∧
    Call.sigaction .SIGTERM .sigterm_handler ∈ (main_init env mem argv).calls := by
  rw [main_init_value_iff] at hv
  obtain ⟨h₁, h₂, h₃⟩ := hv.1 hd
  simp [main_init, daemon_block, signal_set, home_block_outcome, etc_block_outcome,
    dirs_block_outcome, check_cnf_file_outcome, mem_home_block_calls, mem_etc_block_calls,
    mem_check_cnf_file_calls, mem_arg_loop_calls, mem_dirs_block_calls, Run.mem_bind_calls,
    Run.bind_outcome_value, call, exit,
    return_from_main, when_outcome_value, mem_when_calls, main_args_outcome, hd, h₁, h₂, h₃]

theorem main_init_not_failed (env : Env) (mem : List Char) (argv : List Nat) (q : List Char)
    (hv : (main_init env mem argv).outcome = .value q) (c : Call)
    (hc : c ∈ (main_init env mem argv).calls) : c.failed env = false := by
  have hv' := (main_init_value_iff env mem argv q).1 hv
  cases c with
  | sigaction s h =>
      have hd := main_init_sigaction env mem argv _ _ hc
      obtain ⟨_, h₁, h₂⟩ := hv'.1 hd
      cases s <;> simp [Call.failed] <;> assumption
  | mysql_library_init n o => simp [Call.failed, hv'.2.2.1]
  | config_load p =>
      have := main_init_config_load env mem argv p hc
      rw [hv'.2.1] at this
      cases this
      simpa [Call.failed] using hv'.2.2.2
  | _ => simp [Call.failed]

/-! ## The serving part of `main` -/

theorem start_poll_threads_outcome (env : Env) (ns : List Nat) :
    (start_poll_threads env ns).outcome
      = .value (ns.map fun (n : Nat) => env.thread_start .poll_waitevents (n + 1)) := by
  induction ns with
  | nil => simp [start_poll_threads]
  | cons n ns ih => simp [start_poll_threads, Run.bind, call, ih]

theorem start_poll_threads_calls (env : Env) (ns : List Nat) :
    (start_poll_threads env ns).calls
      = ns.map fun (n : Nat) => Call.thread_start .poll_waitevents (n + 1) := by
  induction ns with
  | nil => simp [start_poll_threads]
  | cons n ns ih =>
      simp [start_poll_threads, Run.bind, call, ih, start_poll_threads_outcome]

theorem wait_poll_threads_outcome (ts : List Nat) :
    (wait_poll_threads ts).outcome = .value () := by
  induction ts with
  | nil => simp [wait_poll_threads]
  | cons t ts ih => simp [wait_poll_threads, Run.bind, call, ih]

theorem wait_poll_threads_calls (ts : List Nat) :
    (wait_poll_threads ts).calls = ts.map Call.thread_wait := by
  induction ts with
  | nil => simp [wait_poll_threads]
  | cons t ts ih => simp [wait_poll_threads, Run.bind, call, ih]

theorem main_serve_outcome (env : Env) : (main_serve env).outcome = .value 0 := by
  simp [main_serve, Run.bind, call, start_poll_threads_outcome, wait_poll_threads_outcome]

theorem main_serve_calls (env : Env) :
    (main_serve env).calls =
      [Call.skygw_log_write .LOGFILE_MESSAGE .banner,
       Call.skygw_log_write .LOGFILE_MESSAGE .starting,
       Call.poll_init, Call.serviceStartAll,
       Call.skygw_log_write .LOGFILE_MESSAGE .started_modules,
       Call.thread_start .log_flush_cb 1000,
       Call.config_threadcount, Call.calloc env.config_threadcount] ++
      ((List.range (env.config_threadcount - 1).toNat).map
        fun (n : Nat) => Call.thread_start .poll_waitevents (n + 1)) ++
      [Call.poll_waitevents 0] ++
      ((List.range (env.config_threadcount - 1).toNat).map
        fun (n : Nat) => Call.thread_wait (env.thread_start .poll_waitevents (n + 1))) ++
      [Call.free, Call.thread_wait (env.thread_start .log_flush_cb 1000),
       Call.monitorStopAll, Call.skygw_log_write .LOGFILE_MESSAGE .shutdown] := by
  simp [main_serve, Run.bind, call, start_poll_threads_outcome, wait_poll_threads_outcome,
    start_poll_threads_calls, wait_poll_threads_calls, Function.comp_def]

theorem main_of_value (env : Env) (mem : List Char) (argv : List Nat) (q : List Char)
    (hv : (main_init env mem argv).outcome = .value q) :
    main env mem argv = ⟨(main_init env mem argv).calls ++ (main_serve env).calls, .value 0⟩ := by
  unfold main
  simp only [Run.bind_def]
  rw [Run.bind_of_value _ _ _ hv, main_serve_outcome]

theorem main_of_halted (env : Env) (mem : List Char) (argv : List Nat) (s : Int)
    (hv : (main_init env mem argv).outcome = .halted s) :
    main env mem argv = ⟨(main_init env mem argv).calls, .halted 1⟩ := by
  unfold main
  simp only [Run.bind_def]
  rw [Run.bind_of_halted _ _ _ hv, main_init_halted env mem argv s hv]

theorem main_serve_calls_kind (env : Env) (c : Call) (hc : c ∈ (main_serve env).calls) :
    c.isSigaction = false ∧ c.configLoadPath = none ∧ c.failed env = false := by
  rw [main_serve_calls] at hc
  simp only [List.mem_append, List.mem_cons, List.mem_map, List.mem_singleton,
    List.not_mem_nil, or_false] at hc
  rcases hc with (((h | ⟨n, _, rfl⟩) | h) | ⟨n, _, rfl⟩) | h
  · rcases h with rfl | rfl | rfl | rfl | rfl | rfl | rfl | rfl <;>
      simp [Call.isSigaction, Call.configLoadPath, Call.failed]
  · simp [Call.isSigaction, Call.configLoadPath, Call.failed]
  · subst h
    simp [Call.isSigaction, Call.configLoadPath, Call.failed]
  · simp [Call.isSigaction, Call.configLoadPath, Call.failed]
  · rcases h with rfl | rfl | rfl | rfl <;>
      simp [Call.isSigaction, Call.configLoadPath, Call.failed]

theorem isServeCall_of_threads (c : Call) (h : c.isServeCall = false) :
    c.isThreadStart = false ∧ c.isPollWait = false ∧ c.isThreadWait = false ∧
      c.isParticipant = false ∧ c ≠ Call.poll_init := by
  cases c <;> simp_all [Call.isServeCall, Call.isThreadStart, Call.isPollWait,
    Call.isThreadWait, Call.isParticipant]

theorem daemon_mode_fold (mem : List Char) (argv : List Nat) (st : ArgState) :
    (argv.foldl (arg_step_state mem) st).daemon_mode
      = if has_dash_d mem argv then 0 else st.daemon_mode := by
  induction argv generalizing st with
  | nil => simp [has_dash_d]
  | cons p ps ih =>
      rw [List.foldl_cons, ih]
      by_cases hp : cstr mem p = ['-', 'd']
      · have h₁ : has_dash_d mem (p :: ps) := ⟨p, by simp, hp⟩
        simp only [h₁, if_true]
        split_ifs
        · rfl
        · unfold arg_step_state
          simp only [hp, if_true]
          split_ifs <;> rfl
      · have h₁ : has_dash_d mem (p :: ps) ↔ has_dash_d mem ps := by
          unfold has_dash_d
          simp [hp]
        simp only [h₁]
        split_ifs
        · rfl
        · unfold arg_step_state
          simp only [hp, if_false]
          split_ifs <;> rfl

theorem daemon_mode_iff (mem : List Char) (argv : List Nat) :
    (main_args mem argv).daemon_mode = 1 ↔ ¬ has_dash_d mem argv := by
  unfold main_args
  rw [daemon_mode_fold]
  split_ifs with h <;> simp [h]

/-! ## Theorems on `main` and the signal handlers -/

/-- C5. In every run of `main` in which no configuration file can be resolved,
or a call of `mysql_library_init`, `config_load` or `sigaction` fails, the
process ends with status 1 and has made no `thread_start` call and no
`poll_waitevents` call; a run without any of these failures in which
`poll_waitevents` was called and returned ends with status 0. -/
theorem main_fatal_init_status (env : Env) (mem : List Char) (argv : List Nat) :
    ((no_config_file env mem argv = true ∨
        ∃ c ∈ (main env mem argv).calls, c.failed env = true) →
      (main env mem argv).status = 1 ∧
      (main env mem argv).outcome = .halted 1 ∧
      ∀ c ∈ (main env mem argv).calls, c.isThreadStart = false ∧ c.isPollWait = false) ∧
    (¬ (no_config_file env mem argv = true ∨
        ∃ c ∈ (main env mem argv).calls, c.failed env = true) →
      Call.poll_waitevents 0 ∈ (main env mem argv).calls →
      (main env mem argv).status = 0) := by
  cases hv : (main_init env mem argv).outcome with
  | halted s =>
      rw [main_of_halted env mem argv s hv]
      refine ⟨fun _ => ⟨rfl, rfl, fun c hc => ?_⟩, fun _ hp => ?_⟩
      · have := isServeCall_of_threads c (main_init_calls_not_serve env mem argv c hc)
        exact ⟨this.1, this.2.1⟩
      · have := main_init_calls_not_serve env mem argv _ hp
        simp [Call.isServeCall] at this
  | value q =>
      rw [main_of_value env mem argv q hv]
      refine ⟨fun hf => ?_, fun _ _ => rfl⟩
      exfalso
      rcases hf with hn | ⟨c, hc, hfail⟩
      · rw [← resolved_none_iff, ((main_init_value_iff env mem argv q).1 hv).2.1] at hn
        cases hn
      · rcases List.mem_append.1 hc with h | h
        · rw [main_init_not_failed env mem argv q hv c h] at hfail
          cases hfail
        · rw [(main_serve_calls_kind env c h).2.2] at hfail
          cases hfail

/-- C5, in a run with no readable configuration file and in a run where every
call succeeds. -/
theorem main_fatal_init_status_witness :
    (main env_nocnf (layout_bytes args_plain) (layout_ptrs 0 args_plain)).status = 1 ∧
    (main env₀ (layout_bytes args_plain) (layout_ptrs 0 args_plain)).status = 0 :=
  ⟨((main_fatal_init_status env_nocnf (layout_bytes args_plain)
      (layout_ptrs 0 args_plain)).1 (Or.inl (by decide))).1,
   (main_fatal_init_status env₀ (layout_bytes args_plain) (layout_ptrs 0 args_plain)).2
      (by decide) (by decide)⟩

theorem main_reaches_serve (env : Env) (mem : List Char) (argv : List Nat)
    (h : Call.poll_init ∈ (main env mem argv).calls) :
    (main env mem argv).calls = (main_init env mem argv).calls ++ (main_serve env).calls := by
  cases hv : (main_init env mem argv).outcome with
  | halted s =>
      rw [main_of_halted env mem argv s hv] at h
      have := main_init_calls_not_serve env mem argv _ h
      simp [Call.isServeCall] at this
  | value q => rw [main_of_value env mem argv q hv]

theorem filter_main_init_calls (env : Env) (mem : List Char) (argv : List Nat)
    (p : Call → Bool) (hp : ∀ c, c.isServeCall = false → p c = false) :
    (main_init env mem argv).calls.filter p = [] := by
  rw [List.filter_eq_nil_iff]
  intro c hc
  simp [hp c (main_init_calls_not_serve env mem argv c hc)]

/-- C6. In every run of `main` that gets past initialisation (it reaches
`poll_init`) with a configured thread count `K ≥ 1`, the poll participants are,
in this order, the `K - 1` threads started on `poll_waitevents` with the ids
`1, ..., K - 1` and then the direct call `poll_waitevents(0)`, `K` in all; after
that call `thread_wait` is called once on each of the `K - 1` thread handles, in
the order of their start, and then on the log flusher. For `K = 1` no thread is
started on `poll_waitevents`. -/
theorem main_poll_participants (env : Env) (mem : List Char) (argv : List Nat) (K : Nat)
    (hK : 1 ≤ K) (hcfg : env.config_threadcount = (K : Int))
    (hrun : Call.poll_init ∈ (main env mem argv).calls) :
    (main env mem argv).calls.filter Call.isParticipant
      = ((List.range (K - 1)).map fun (n : Nat) => Call.thread_start .poll_waitevents (n + 1))
          ++ [Call.poll_waitevents 0] ∧
    ((main env mem argv).calls.filter Call.isParticipant).length = K ∧
    (main env mem argv).calls.filter (fun c => c.isPollWait || c.isThreadWait)
      = Call.poll_waitevents 0 ::
          ((List.range (K - 1)).map fun (n : Nat) =>
            Call.thread_wait (env.thread_start .poll_waitevents (n + 1)))
          ++ [Call.thread_wait (env.thread_start .log_flush_cb 1000)] ∧
    (K = 1 → ∀ c ∈ (main env mem argv).calls, ∀ a, c ≠ Call.thread_start .poll_waitevents a) := by
  have hn : (env.config_threadcount - 1).toNat = K - 1 := by omega
  have h₁ : (main env mem argv).calls.filter Call.isParticipant
      = ((List.range (K - 1)).map fun (n : Nat) => Call.thread_start .poll_waitevents (n + 1))
          ++ [Call.poll_waitevents 0] := by
    rw [main_reaches_serve env mem argv hrun, List.filter_append,
      filter_main_init_calls env mem argv _
        (fun c hc => (isServeCall_of_threads c hc).2.2.2.1),
      main_serve_calls, hn]
    simp [List.filter_append, List.filter_cons, List.filter_map, Call.isParticipant,
      Function.comp_def]
  refine ⟨h₁, ?_, ?_, ?_⟩
  · rw [h₁, List.length_append, List.length_map, List.length_range, List.length_singleton]
    omega
  · rw [main_reaches_serve env mem argv hrun, List.filter_append,
      filter_main_init_calls env mem argv _
        (fun c hc => by simp [(isServeCall_of_threads c hc).2.1,
          (isServeCall_of_threads c hc).2.2.1]),
      main_serve_calls, hn]
    simp [List.filter_append, List.filter_cons, List.filter_map, Call.isPollWait,
      Call.isThreadWait, Function.comp_def]
  · rintro rfl c hc a rfl
    have hmem : Call.thread_start .poll_waitevents a
        ∈ (main env mem argv).calls.filter Call.isParticipant :=
      List.mem_filter.2 ⟨hc, rfl⟩
    rw [h₁] at hmem
    simp at hmem

/-- C6, with four configured threads. -/
theorem main_poll_participants_witness :
    ((main env₀ (layout_bytes args_plain) (layout_ptrs 0 args_plain)).calls.filter
      Call.isParticipant).length = 4 :=
  (main_poll_participants env₀ (layout_bytes args_plain) (layout_ptrs 0 args_plain) 4
    (by decide) rfl (by decide)).2.1

/-- C9, as stated, fails: `sighup_handler` writes to the log and calls
`config_reload`. -/
theorem sighup_handler_does_reload :
    Call.config_reload ∈ (sighup_handler 1 ⟨false⟩).calls ∧
    Call.skygw_log_write .LOGFILE_MESSAGE .refreshing_configuration
      ∈ (sighup_handler 1 ⟨false⟩).calls := by
  decide

theorem config_reload_not_in_main_init (env : Env) (mem : List Char) (argv : List Nat) :
    Call.config_reload ∉ (main_init env mem argv).calls := by
  intro hc
  simp [main_init, daemon_block, signal_set, home_block_outcome, etc_block_outcome,
    dirs_block_outcome, check_cnf_file_outcome, mem_home_block_calls, mem_etc_block_calls,
    mem_check_cnf_file_calls, mem_arg_loop_calls, mem_dirs_block_calls, Run.mem_bind_calls,
    Run.bind_outcome_value, call, exit,
    return_from_main, when_outcome_value, mem_when_calls, main_args_outcome] at hc

theorem config_reload_not_in_main_serve (env : Env) :
    Call.config_reload ∉ (main_serve env).calls := by
  rw [main_serve_calls]
  simp

/-- C9, amended. On delivery of SIGHUP `sighup_handler` writes one line to the
message log and then calls `config_reload` itself; it makes no other call,
changes no global flag and returns. No run of `main` calls `config_reload`: the
reload is done inside the handler only, not by later ordinary control flow. -/
theorem sighup_handler_calls :
    (∀ (i : Int) (g : Globals),
      (sighup_handler i g).calls
        = [Call.skygw_log_write .LOGFILE_MESSAGE .refreshing_configuration,
           Call.config_reload] ∧
      (sighup_handler i g).outcome = .value g) ∧
    (∀ (env : Env) (mem : List Char) (argv : List Nat),
      Call.config_reload ∉ (main env mem argv).calls) := by
  refine ⟨fun i g => by simp [sighup_handler, Run.bind, call], fun env mem argv hc => ?_⟩
  cases hv : (main_init env mem argv).outcome with
  | halted s =>
      rw [main_of_halted env mem argv s hv] at hc
      exact config_reload_not_in_main_init env mem argv hc
  | value q =>
      rw [main_of_value env mem argv q hv] at hc
      rcases List.mem_append.1 hc with h | h
      · exact config_reload_not_in_main_init env mem argv h
      · exact config_reload_not_in_main_serve env h

/-- C10. In the run `maxscale -c /tmp/my.cnf` with `MAXSCALE_HOME=/opt/ms` and
`/opt/ms/etc/MaxScale.cnf` readable, the argument loop selects `/tmp/my.cnf`,
yet the one `config_load` call is given `/opt/ms/etc/MaxScale.cnf`. -/
theorem main_home_cnf_overrides_option :
    (arg_loop (layout_bytes args_c) (layout_ptrs 0 args_c) ⟨1, none⟩).outcome
      = .value ⟨1, some 12⟩ ∧
    cstr (layout_bytes args_c) 12 = "/tmp/my.cnf".toList ∧
    (main env_home (layout_bytes args_c) (layout_ptrs 0 args_c)).calls.filterMap
        Call.configLoadPath
      = ["/opt/ms/etc/MaxScale.cnf".toList] := by
  decide

/-- C7, for the command lines `maxscale -c/tmp/my.cnf` and
`maxscale -c /tmp/my.cnf`. -/
theorem arg_loop_selects_cnf_file_witness :
    (∃ st ptr,
      (arg_loop ([] ++ layout_bytes ["maxscale".toList, "-c/tmp/my.cnf".toList] ++ [])
          (layout_ptrs ([] : List Char).length ["maxscale".toList, "-c/tmp/my.cnf".toList])
          ⟨1, none⟩).outcome = .value st ∧
      st.cnf_file = some ptr ∧
      cstr ([] ++ layout_bytes ["maxscale".toList, "-c/tmp/my.cnf".toList] ++ []) ptr
        = "/tmp/my.cnf".toList) ∧
    (∃ st ptr,
      (arg_loop ([] ++ layout_bytes args_c ++ []) (layout_ptrs ([] : List Char).length args_c)
          ⟨1, none⟩).outcome = .value st ∧
      st.cnf_file = some ptr ∧
      cstr ([] ++ layout_bytes args_c ++ []) ptr = "/tmp/my.cnf".toList) :=
  ⟨arg_loop_selects_cnf_file [] [] "/tmp/my.cnf".toList ["maxscale".toList] [] _
      (by decide) (by decide) (by decide) (by decide) (Or.inl rfl),
   arg_loop_selects_cnf_file [] [] "/tmp/my.cnf".toList ["maxscale".toList] [] _
      (by decide) (by decide) (by decide) (by decide) (Or.inr ⟨rfl, by decide⟩)⟩

end Gateway
